import Mathlib

/- Verification of the client-side aggregation and classification engine of the
patient-satisfaction survey dashboard. The definitions below are a shallow
embedding of the TypeScript source: JS numbers are modelled as rationals, JS
null/undefined as Option, a non-finite division result (NaN) as Option.none,
and JS objects used as key-indexed accumulators as association lists in key
insertion order (the object keys that occur here are never array indices, so
JS preserves insertion order for them). -/

namespace SurveySpec

/-- Model of JS Math.round: nearest integer, halves toward positive infinity. -/
def jsRound (q : ℚ) : ℤ := ⌊q + 1/2⌋

/-- Model of the JS expression x || d for an optional numeric x: null,
undefined and 0 are falsy and yield the default d. -/
def jsOr (x : Option ℚ) (d : ℚ) : ℚ :=
  match x with
  | none => d
  | some v => if v = 0 then d else v

/-- Model of JS division where a division of 0 by 0 (the only unguarded case
reachable in this code) produces NaN, represented as none. -/
def jsDiv (a b : ℚ) : Option ℚ :=
  if b = 0 then none else some (a / b)

/-- Model of JS string truthiness for an optional string: null, undefined and
the empty string are falsy. -/
def strTruthy (x : Option String) : Bool :=
  match x with
  | none => false
  | some s => decide (s ≠ "")

/-- One survey_responses row, restricted to the fields the verified
computations read. The source derives the month key from created_at via
format(new Date(created_at), the yyyy-MM pattern); that key is in bijection
with the (year, month) pair, which we store directly. Rating fields are
modelled as optional to express the defensive null/undefined handling the
dashboard code performs. -/
structure SurveyResponse where
  created_year : Nat
  created_month : Nat
  nps_score : Int
  website_design_rating : Option ℚ
  communication_clarity : Option ℚ
  reception_friendliness : Option ℚ
  clinic_environment : Option ℚ
  doctor_listening : Option ℚ
  explanation_clarity : Option ℚ
  consultation_time : Option ℚ
  how_did_you_know_us : Option String
  body_area : String
  other_body_area : Option String
deriving DecidableEq, Repr

/-- The three NPS bands. -/
inductive NpsBand where
  | promoter
  | passive
  | detractor
deriving DecidableEq, Repr

/-- Embedding of getNPSBadge (SurveyTable.tsx lines 217 to 225): score of 9 or
more is a promoter, else 7 or more is a passive, else a detractor. -/
def getNPSBadge (score : Int) : NpsBand :=
  if 9 ≤ score then NpsBand.promoter
  else if 7 ≤ score then NpsBand.passive
  else NpsBand.detractor

/-- Promoter count of calculateNPS: the filter on nps_score at least 9. -/
def promoters (surveys : List SurveyResponse) : Nat :=
  (surveys.filter fun s => decide (9 ≤ s.nps_score)).length

/-- Passive count of calculateNPS: the filter on nps_score between 7 and 8. -/
def passives (surveys : List SurveyResponse) : Nat :=
  (surveys.filter fun s => decide (7 ≤ s.nps_score ∧ s.nps_score ≤ 8)).length

/-- Detractor count of calculateNPS: the filter on nps_score at most 6. -/
def detractors (surveys : List SurveyResponse) : Nat :=
  (surveys.filter fun s => decide (s.nps_score ≤ 6)).length

/-- Result record of calculateNPS. -/
structure NPSResult where
  nps : ℤ
  promoters : ℕ
  passives : ℕ
  detractors : ℕ
deriving DecidableEq, Repr

/-- Embedding of calculateNPS (CommentsSection.tsx lines 567 to 577, likewise
SurveyCharts.tsx lines 129 to 140 and part_002 lines 153 to 163): an empty
collection yields the zero result, otherwise the score is
Math.round(((promoters - detractors) / total) * 100). -/
def calculateNPS (surveys : List SurveyResponse) : NPSResult :=
  if surveys.length = 0 then ⟨0, 0, 0, 0⟩
  else
    ⟨jsRound (((promoters surveys : ℤ) - (detractors surveys : ℤ) : ℚ) / (surveys.length : ℚ) * 100),
      promoters surveys, passives surveys, detractors surveys⟩

/-- One per-field average of calculateAverages: the source line
surveys.reduce((sum, s) => sum + (s.field || 0), 0) / surveys.length.
The division is only evaluated under the non-empty guard of
calculateAverages. -/
def avgField (f : SurveyResponse → Option ℚ) (surveys : List SurveyResponse) : ℚ :=
  (surveys.foldl (fun sum s => sum + jsOr (f s) 0) 0) / (surveys.length : ℚ)

/-- The averages object computed by calculateAverages for a non-empty input. -/
structure Averages where
  website_design_rating : ℚ
  communication_clarity : ℚ
  reception_friendliness : ℚ
  clinic_environment : ℚ
  doctor_listening : ℚ
  explanation_clarity : ℚ
  consultation_time : ℚ
deriving DecidableEq, Repr

/-- Embedding of calculateAverages (CommentsSection.tsx lines 553 to 565,
likewise part_002 lines 139 to 151): the empty collection returns the empty
object, modelled as none; otherwise each field is the sum of the
null-coerced values divided by the full collection length. -/
def calculateAverages (surveys : List SurveyResponse) : Option Averages :=
  if surveys.length = 0 then none
  else some
    { website_design_rating := avgField (fun s => s.website_design_rating) surveys
      communication_clarity := avgField (fun s => s.communication_clarity) surveys
      reception_friendliness := avgField (fun s => s.reception_friendliness) surveys
      clinic_environment := avgField (fun s => s.clinic_environment) surveys
      doctor_listening := avgField (fun s => s.doctor_listening) surveys
      explanation_clarity := avgField (fun s => s.explanation_clarity) surveys
      consultation_time := avgField (fun s => s.consultation_time) surveys }

/-- Embedding of normalizeWebsiteRating (CommentsSection.tsx line 697): clamp
into the 3-point scale and map affinely onto the 1 to 10 axis. -/
def normalizeWebsiteRating (rating : ℚ) : ℚ :=
  (max 1 (min 3 rating) - 1) / 2 * 9 + 1

/-- Embedding of normalizeCommunicationRating (CommentsSection.tsx line 698):
identical to the website normalizer. -/
def normalizeCommunicationRating (rating : ℚ) : ℚ :=
  (max 1 (min 3 rating) - 1) / 2 * 9 + 1

/-- Embedding of normalizeOtherRatings (CommentsSection.tsx line 699): clamp
into the 5-point scale and map affinely onto the 1 to 10 axis. -/
def normalizeOtherRatings (rating : ℚ) : ℚ :=
  (max 1 (min 5 rating) - 1) / 4 * 9 + 1

/-- Embedding of averageSatisfaction (CommentsSection.tsx lines 701 to 709):
the mean of the normalized per-field averages, where a missing or zero field
average defaults to 1 via the JS || 1. -/
def averageSatisfaction (surveys : List SurveyResponse) : ℚ :=
  (normalizeWebsiteRating (jsOr ((calculateAverages surveys).map Averages.website_design_rating) 1) +
   normalizeCommunicationRating (jsOr ((calculateAverages surveys).map Averages.communication_clarity) 1) +
   normalizeOtherRatings (jsOr ((calculateAverages surveys).map Averages.reception_friendliness) 1) +
   normalizeOtherRatings (jsOr ((calculateAverages surveys).map Averages.clinic_environment) 1) +
   normalizeOtherRatings (jsOr ((calculateAverages surveys).map Averages.doctor_listening) 1) +
   normalizeOtherRatings (jsOr ((calculateAverages surveys).map Averages.explanation_clarity) 1) +
   normalizeOtherRatings (jsOr ((calculateAverages surveys).map Averages.consultation_time) 1)) / 7

/-- Model of Object.values on the averages object: the empty object has no
values, otherwise the seven field values in declaration order. -/
def objectValues (a : Option Averages) : List ℚ :=
  match a with
  | none => []
  | some v => [v.website_design_rating, v.communication_clarity, v.reception_friendliness,
      v.clinic_environment, v.doctor_listening, v.explanation_clarity, v.consultation_time]

/-- Embedding of averageSatisfaction of the part_002 dashboard variant (line
239): Object.values(averages).reduce((sum, avg) => sum + (avg || 0), 0)
divided by Object.keys(averages).length. On the empty collection the averages
object is empty, so this divides 0 by 0, which is NaN in JS, modelled as
none. -/
def averageSatisfactionV2 (surveys : List SurveyResponse) : Option ℚ :=
  jsDiv ((objectValues (calculateAverages surveys)).foldl (fun sum avg => sum + jsOr (some avg) 0) 0)
    ((objectValues (calculateAverages surveys)).length : ℚ)

/-- Embedding of calculateAverageSatisfaction (CommentsSection.tsx lines 139
to 151): keep the ratings that are not null or undefined and divide their raw
sum by their number; no normalization is applied. When every rating is absent
this divides 0 by 0, hence the Option result. -/
def calculateAverageSatisfaction (survey : SurveyResponse) : Option ℚ :=
  jsDiv (([survey.website_design_rating, survey.communication_clarity,
      survey.reception_friendliness, survey.clinic_environment, survey.doctor_listening,
      survey.explanation_clarity, survey.consultation_time].reduceOption).foldl (fun sum r => sum + r) 0)
    (([survey.website_design_rating, survey.communication_clarity,
      survey.reception_friendliness, survey.clinic_environment, survey.doctor_listening,
      survey.explanation_clarity, survey.consultation_time].reduceOption).length : ℚ)

/-- Composite written from the words of the spec, for comparison with the
code: the mean of the normalized values of the chosen rating fields of one
record, each field first mapped from its native scale onto the common axis. -/
def compositeNormalizedOfRecord (survey : SurveyResponse) : Option ℚ :=
  jsDiv ((([survey.website_design_rating.map normalizeWebsiteRating,
      survey.communication_clarity.map normalizeCommunicationRating,
      survey.reception_friendliness.map normalizeOtherRatings,
      survey.clinic_environment.map normalizeOtherRatings,
      survey.doctor_listening.map normalizeOtherRatings,
      survey.explanation_clarity.map normalizeOtherRatings,
      survey.consultation_time.map normalizeOtherRatings].reduceOption).foldl (fun sum r => sum + r) 0))
    ((([survey.website_design_rating.map normalizeWebsiteRating,
      survey.communication_clarity.map normalizeCommunicationRating,
      survey.reception_friendliness.map normalizeOtherRatings,
      survey.clinic_environment.map normalizeOtherRatings,
      survey.doctor_listening.map normalizeOtherRatings,
      survey.explanation_clarity.map normalizeOtherRatings,
      survey.consultation_time.map normalizeOtherRatings].reduceOption).length : ℚ))

/-- Composite written from the words of the spec at collection level: the
mean of the normalized values of the per-field averages, with the source
defaulting of absent averages to 1. -/
def compositeOfNormalizedAverages (surveys : List SurveyResponse) : ℚ :=
  (normalizeWebsiteRating (jsOr ((calculateAverages surveys).map Averages.website_design_rating) 1) +
   normalizeCommunicationRating (jsOr ((calculateAverages surveys).map Averages.communication_clarity) 1) +
   normalizeOtherRatings (jsOr ((calculateAverages surveys).map Averages.reception_friendliness) 1) +
   normalizeOtherRatings (jsOr ((calculateAverages surveys).map Averages.clinic_environment) 1) +
   normalizeOtherRatings (jsOr ((calculateAverages surveys).map Averages.doctor_listening) 1) +
   normalizeOtherRatings (jsOr ((calculateAverages surveys).map Averages.explanation_clarity) 1) +
   normalizeOtherRatings (jsOr ((calculateAverages surveys).map Averages.consultation_time) 1)) / 7

/-- The rounding rule the spec prescribes for computeNPS, written from the
spec words: round half away from zero. -/
def roundHalfAwayFromZero (q : ℚ) : ℤ :=
  if 0 ≤ q then ⌊q + 1/2⌋ else -⌊-q + 1/2⌋

/-- Embedding of getSourceLabel (CommentsSection.tsx lines 654 to 662). -/
def getSourceLabel (source : String) : String :=
  match source with
  | "redes_sociales" => "Redes sociales"
  | "clinica_fisioterapia" => "Clínica de fisioterapia"
  | "un_amigo" => "Un amigo"
  | "un_conocido" => "Un conocido"
  | _ => source

/-- A JS object used as a counter: bump the count stored under key k,
creating the key at the end when it is new. Key insertion order is
preserved, as JS objects do for non-index string keys. -/
def bump {κ : Type} [DecidableEq κ] : List (κ × Nat) → κ → List (κ × Nat)
  | [], k => [(k, 1)]
  | (k', n) :: rest, k =>
      if k' = k then (k', n + 1) :: rest else (k', n) :: bump rest k

/-- One entry of referralSourceData. -/
structure SourceEntry where
  source : String
  count : ℕ
  percentage : ℤ
deriving DecidableEq, Repr

/-- Embedding of referralSourceData (CommentsSection.tsx lines 635 to 652):
group the truthy how_did_you_know_us values by their display label, then map
each count to a percentage of the whole filtered collection length. -/
def referralSourceData (surveys : List SurveyResponse) : List SourceEntry :=
  if surveys.length = 0 then []
  else
    ((surveys.foldl (fun acc survey =>
        match survey.how_did_you_know_us with
        | some source => if source ≠ "" then bump acc (getSourceLabel source) else acc
        | none => acc) []).map fun p =>
      { source := p.1, count := p.2, percentage := jsRound ((p.2 : ℚ) / (surveys.length : ℚ) * 100) })

/-- Embedding of getBodyAreaLabel (SurveyTable.tsx lines 551 to 564). -/
def getBodyAreaLabel (body_area : String) : String :=
  match body_area with
  | "rodilla" => "Rodilla"
  | "hombro" => "Hombro"
  | "pie" => "Pie"
  | "mano" => "Mano"
  | "codo" => "Codo"
  | "columna_cervical" => "Columna Cervical"
  | "columna_dorsal" => "Columna Dorsal"
  | "columna_lumbar" => "Columna Lumbar"
  | "otra" => "Otra zona"
  | _ => body_area

/-- The effective zone of a record in bodyZoneData (SurveyTable.tsx lines 675
to 677): when body_area is the sentinel and other_body_area is truthy, the
free text is the key; otherwise body_area itself. -/
def effectiveZone (survey : SurveyResponse) : String :=
  match survey.other_body_area with
  | some t => if survey.body_area = "otra" ∧ t ≠ "" then t else survey.body_area
  | none => survey.body_area

/-- One entry of bodyZoneData. -/
structure ZoneEntry where
  zone : String
  count : ℕ
  label : String
  percentage : ℤ
deriving DecidableEq, Repr

/-- The counts object of bodyZoneData (SurveyTable.tsx lines 674 to 681): the
reduce that bumps the counter of the effective zone of each record. -/
def zoneCounts (surveys : List SurveyResponse) : List (String × Nat) :=
  surveys.foldl (fun acc survey => bump acc (effectiveZone survey)) []

/-- Embedding of bodyZoneData (SurveyTable.tsx lines 673 to 691): tally the
effective zones, compute each percentage of the summed total, and sort by
count descending with the stable array sort. The source stores the label in
the accumulator; it always equals getBodyAreaLabel of the zone, applied here
in the final map. -/
def bodyZoneData (surveys : List SurveyResponse) : List ZoneEntry :=
  ((zoneCounts surveys).map fun p =>
    { zone := p.1, count := p.2, label := getBodyAreaLabel p.1,
      percentage := jsRound ((p.2 : ℚ) /
        (((zoneCounts surveys).map Prod.snd).sum : ℚ) * 100) }).mergeSort
    (fun a b => decide (b.count ≤ a.count))

/-- The month key of a record: the source formats created_at with the
yyyy-MM pattern; that string is in bijection with this pair. -/
def monthKeyPair (s : SurveyResponse) : Nat × Nat :=
  (s.created_year, s.created_month)

/-- Spanish month abbreviations produced by the date formatter with the es
locale and the MMM pattern. A month outside 1 to 12 would make the source
produce an invalid date; the claims only involve months 1 to 12. -/
def monthAbbrevEs (m : Nat) : String :=
  match m with
  | 1 => "ene" | 2 => "feb" | 3 => "mar" | 4 => "abr"
  | 5 => "may" | 6 => "jun" | 7 => "jul" | 8 => "ago"
  | 9 => "sep" | 10 => "oct" | 11 => "nov" | 12 => "dic"
  | _ => ""

/-- The display label of a month point: the MMM yyyy pattern with the es
locale. -/
def monthLabelEs (k : Nat × Nat) : String :=
  monthAbbrevEs k.2 ++ " " ++ toString k.1

/-- Codepoint-lexicographic comparison of character lists. For the lowercase
ASCII month labels compared here, the sign of String.prototype.localeCompare
coincides with this order. -/
def lexLe : List Char → List Char → Bool
  | [], _ => true
  | _ :: _, [] => false
  | a :: as, b :: bs =>
    if a.toNat < b.toNat then true
    else if b.toNat < a.toNat then false
    else lexLe as bs

/-- Model of a.localeCompare(b) <= 0 for the month labels. -/
def labelLe (a b : String) : Bool := lexLe a.data b.data

/-- A JS object used to group records: append record a to the group stored
under key k, creating the group at the end when the key is new. -/
def pushGroup {α κ : Type} [DecidableEq κ] : List (κ × List α) → κ → α → List (κ × List α)
  | [], k, a => [(k, [a])]
  | (k', g) :: rest, k, a =>
      if k' = k then (k', g ++ [a]) :: rest else (k', g) :: pushGroup rest k a

/-- Grouping a list by a key function, in key insertion order, as the
surveysByMonth reduce does. -/
def groupByKey {α κ : Type} [DecidableEq κ] (key : α → κ) (l : List α) : List (κ × List α) :=
  l.foldl (fun acc a => pushGroup acc (key a) a) []

/-- One point of npsTimeData. -/
structure TrendPoint where
  mes : String
  nps : ℤ
  respuestas : ℕ
deriving DecidableEq, Repr

/-- Embedding of npsTimeData (CommentsSection.tsx lines 670 to 694, likewise
part_002 lines 212 to 236): group by the yyyy-MM key of created_at, map each
group to a point labelled with the localized MMM yyyy string, carrying the
group NPS and the group size, then sort by a.mes.localeCompare(b.mes), that
is by the localized label string. -/
def npsTimeData (surveys : List SurveyResponse) : List TrendPoint :=
  if surveys.length = 0 then []
  else
    ((groupByKey monthKeyPair surveys).map fun p =>
      { mes := monthLabelEs p.1, nps := (calculateNPS p.2).nps, respuestas := p.2.length }).mergeSort
      (fun a b => labelLe a.mes b.mes)

/- Lemmas about the codepoint-lexicographic comparison. -/

theorem lexLe_total (as bs : List Char) : lexLe as bs = true ∨ lexLe bs as = true := by
  induction as generalizing bs with
  | nil => left; rfl
  | cons a as ih =>
    cases bs with
    | nil => right; rfl
    | cons b bs =>
      rcases Nat.lt_trichotomy a.toNat b.toNat with h | h | h
      · left; simp [lexLe, h]
      · have hna : ¬ a.toNat < b.toNat := by omega
        have hnb : ¬ b.toNat < a.toNat := by omega
        rcases ih bs with hh | hh
        · left; simp [lexLe, hna, hnb, hh]
        · right; simp [lexLe, hna, hnb, hh]
      · right; simp [lexLe, h]

theorem lexLe_trans (as bs cs : List Char) (h1 : lexLe as bs = true)
    (h2 : lexLe bs cs = true) : lexLe as cs = true := by
  induction as generalizing bs cs with
  | nil => rfl
  | cons a as ih =>
    cases bs with
    | nil => simp [lexLe] at h1
    | cons b bs =>
      cases cs with
      | nil => simp [lexLe] at h2
      | cons c cs =>
        rcases Nat.lt_trichotomy a.toNat b.toNat with hab | hab | hab
        · have hbc : b.toNat ≤ c.toNat := by
            by_contra hc
            have h1c : c.toNat < b.toNat := by omega
            have h2c : ¬ b.toNat < c.toNat := by omega
            simp [lexLe, h1c, h2c] at h2
          have hac : a.toNat < c.toNat := by omega
          simp [lexLe, hac]
        · have hna : ¬ a.toNat < b.toNat := by omega
          have hnb : ¬ b.toNat < a.toNat := by omega
          have h1r : lexLe as bs = true := by simpa [lexLe, hna, hnb] using h1
          rcases Nat.lt_trichotomy b.toNat c.toNat with hbc | hbc | hbc
          · have hac : a.toNat < c.toNat := by omega
            simp [lexLe, hac]
          · have hnbc : ¬ b.toNat < c.toNat := by omega
            have hncb : ¬ c.toNat < b.toNat := by omega
            have h2r : lexLe bs cs = true := by simpa [lexLe, hnbc, hncb] using h2
            have hnac : ¬ a.toNat < c.toNat := by omega
            have hnca : ¬ c.toNat < a.toNat := by omega
            simpa [lexLe, hnac, hnca] using ih bs cs h1r h2r
          · have hnbc : ¬ b.toNat < c.toNat := by omega
            simp [lexLe, hnbc, hbc] at h2
        · have hnab : ¬ a.toNat < b.toNat := by omega
          simp [lexLe, hnab, hab] at h1

/- Lemmas about the counting accumulator. -/

/-- The count stored under the first occurrence of a key, 0 when absent. -/
def countIn {κ : Type} [DecidableEq κ] : List (κ × Nat) → κ → Nat
  | [], _ => 0
  | (k', n) :: rest, k => if k' = k then n else countIn rest k

theorem countIn_bump {κ : Type} [DecidableEq κ] (acc : List (κ × Nat)) (k j : κ) :
    countIn (bump acc k) j = if j = k then countIn acc j + 1 else countIn acc j := by
  induction acc with
  | nil =>
    by_cases h : j = k
    · subst h; simp [bump, countIn]
    · have h' : ¬ k = j := fun hh => h hh.symm
      simp [bump, countIn, h, h']
  | cons q rest ih =>
    obtain ⟨k', n⟩ := q
    by_cases hk : k' = k
    · subst hk
      by_cases hj : k' = j
      · subst hj
        simp [bump, countIn]
      · have hj' : ¬ j = k' := fun hh => hj hh.symm
        simp [bump, countIn, hj, hj']
    · by_cases hj : k' = j
      · subst hj
        have hj' : ¬ k' = k := hk
        simp [bump, countIn, hk, hj']
      · simp [bump, countIn, hk, hj, ih]

theorem sum_bump {κ : Type} [DecidableEq κ] (acc : List (κ × Nat)) (k : κ) :
    ((bump acc k).map Prod.snd).sum = ((acc.map Prod.snd).sum) + 1 := by
  induction acc with
  | nil => simp [bump]
  | cons q rest ih =>
    obtain ⟨k', n⟩ := q
    by_cases h : k' = k <;> simp [bump, h, ih] <;> omega

theorem bump_map_fst {κ : Type} [DecidableEq κ] (acc : List (κ × Nat)) (k : κ) :
    (bump acc k).map Prod.fst =
      if k ∈ acc.map Prod.fst then acc.map Prod.fst else acc.map Prod.fst ++ [k] := by
  induction acc with
  | nil => simp [bump]
  | cons q rest ih =>
    obtain ⟨k', n⟩ := q
    by_cases h : k' = k
    · subst h; simp [bump]
    · have h' : ¬ k = k' := fun hh => h hh.symm
      rw [show bump ((k', n) :: rest) k = (k', n) :: bump rest k by simp [bump, h]]
      by_cases hm : k ∈ rest.map Prod.fst
      · simp only [List.map_cons, ih, if_pos hm, List.mem_cons]
        rw [if_pos (Or.inr hm)]
      · simp only [List.map_cons, ih, if_neg hm, List.mem_cons]
        simp [h', hm, List.cons_append]

theorem countIn_foldl_bump {α κ : Type} [DecidableEq κ] (f : α → κ) (l : List α)
    (acc : List (κ × Nat)) (j : κ) :
    countIn (l.foldl (fun acc a => bump acc (f a)) acc) j =
      countIn acc j + (l.filter (fun a => decide (f a = j))).length := by
  induction l generalizing acc with
  | nil => simp
  | cons a l ih =>
    simp only [List.foldl_cons, List.filter_cons]
    rw [ih]
    rw [countIn_bump]
    by_cases h : f a = j
    · rw [if_pos h.symm, if_pos (by simpa using h), List.length_cons]
      omega
    · rw [if_neg (fun hh => h hh.symm), if_neg (by simpa using h)]

theorem sum_foldl_bump {α κ : Type} [DecidableEq κ] (f : α → κ) (l : List α)
    (acc : List (κ × Nat)) :
    (((l.foldl (fun acc a => bump acc (f a)) acc)).map Prod.snd).sum =
      ((acc.map Prod.snd).sum) + l.length := by
  induction l generalizing acc with
  | nil => simp
  | cons a l ih =>
    simp only [List.foldl_cons, List.length_cons]
    rw [ih, sum_bump]
    omega

theorem mem_map_fst_foldl_bump {α κ : Type} [DecidableEq κ] (f : α → κ) (l : List α)
    (acc : List (κ × Nat)) (j : κ) :
    j ∈ (l.foldl (fun acc a => bump acc (f a)) acc).map Prod.fst ↔
      j ∈ acc.map Prod.fst ∨ j ∈ l.map f := by
  induction l generalizing acc with
  | nil => simp
  | cons a l ih =>
    simp only [List.foldl_cons, List.map_cons, List.mem_cons]
    rw [ih, bump_map_fst]
    by_cases h : f a ∈ acc.map Prod.fst
    · rw [if_pos h]
      constructor
      · rintro (h1 | h2)
        · exact Or.inl h1
        · exact Or.inr (Or.inr h2)
      · rintro (h1 | rfl | h3)
        · exact Or.inl h1
        · exact Or.inl h
        · exact Or.inr h3
    · rw [if_neg h]
      simp only [List.mem_append, List.mem_singleton]
      constructor
      · rintro ((h1 | h2) | h3)
        · exact Or.inl h1
        · exact Or.inr (Or.inl h2)
        · exact Or.inr (Or.inr h3)
      · rintro (h1 | h2 | h3)
        · exact Or.inl (Or.inl h1)
        · exact Or.inl (Or.inr h2)
        · exact Or.inr h3

theorem nodup_map_fst_foldl_bump {α κ : Type} [DecidableEq κ] (f : α → κ) (l : List α)
    (acc : List (κ × Nat)) (h : (acc.map Prod.fst).Nodup) :
    ((l.foldl (fun acc a => bump acc (f a)) acc).map Prod.fst).Nodup := by
  induction l generalizing acc with
  | nil => simpa
  | cons a l ih =>
    simp only [List.foldl_cons]
    apply ih
    rw [bump_map_fst]
    by_cases hm : f a ∈ acc.map Prod.fst
    · simpa [hm]
    · simp [hm, List.nodup_append, h]

theorem mem_entry_eq_countIn {κ : Type} [DecidableEq κ] (acc : List (κ × Nat))
    (hnd : (acc.map Prod.fst).Nodup) (p : κ × Nat) (hp : p ∈ acc) :
    p.2 = countIn acc p.1 := by
  induction acc with
  | nil => cases hp
  | cons q rest ih =>
    obtain ⟨k', n⟩ := q
    simp only [List.map_cons, List.nodup_cons] at hnd
    rcases List.mem_cons.mp hp with heq | hmem
    · subst heq
      simp [countIn]
    · have hne : ¬ k' = p.1 := by
        intro hcontra
        apply hnd.1
        rw [hcontra]
        exact List.mem_map_of_mem Prod.fst hmem
      simp only [countIn, if_neg hne]
      exact ih hnd.2 hmem

/- Lemmas about the grouping accumulator. -/

/-- The group stored under the first occurrence of a key, empty when absent. -/
def groupIn {α κ : Type} [DecidableEq κ] : List (κ × List α) → κ → List α
  | [], _ => []
  | (k', g) :: rest, k => if k' = k then g else groupIn rest k

theorem groupIn_pushGroup {α κ : Type} [DecidableEq κ] (acc : List (κ × List α)) (k j : κ)
    (a : α) :
    groupIn (pushGroup acc k a) j = if j = k then groupIn acc j ++ [a] else groupIn acc j := by
  induction acc with
  | nil =>
    by_cases h : j = k
    · subst h; simp [pushGroup, groupIn]
    · have h' : ¬ k = j := fun hh => h hh.symm
      simp [pushGroup, groupIn, h, h']
  | cons q rest ih =>
    obtain ⟨k', g⟩ := q
    by_cases hk : k' = k
    · subst hk
      by_cases hj : k' = j
      · subst hj
        simp [pushGroup, groupIn]
      · have hj' : ¬ j = k' := fun hh => hj hh.symm
        simp [pushGroup, groupIn, hj, hj']
    · by_cases hj : k' = j
      · subst hj
        simp [pushGroup, groupIn, hk]
      · simp [pushGroup, groupIn, hk, hj, ih]

theorem groupIn_foldl_pushGroup {α κ : Type} [DecidableEq κ] (key : α → κ) (l : List α)
    (acc : List (κ × List α)) (j : κ) :
    groupIn (l.foldl (fun acc a => pushGroup acc (key a) a) acc) j =
      groupIn acc j ++ l.filter (fun a => decide (key a = j)) := by
  induction l generalizing acc with
  | nil => simp
  | cons a l ih =>
    simp only [List.foldl_cons, List.filter_cons]
    rw [ih, groupIn_pushGroup]
    by_cases h : key a = j
    · rw [if_pos h.symm, if_pos (by simpa using h)]
      simp
    · rw [if_neg (fun hh => h hh.symm), if_neg (by simpa using h)]

theorem pushGroup_map_fst {α κ : Type} [DecidableEq κ] (acc : List (κ × List α)) (k : κ)
    (a : α) :
    (pushGroup acc k a).map Prod.fst =
      if k ∈ acc.map Prod.fst then acc.map Prod.fst else acc.map Prod.fst ++ [k] := by
  induction acc with
  | nil => simp [pushGroup]
  | cons q rest ih =>
    obtain ⟨k', g⟩ := q
    by_cases h : k' = k
    · subst h; simp [pushGroup]
    · have h' : ¬ k = k' := fun hh => h hh.symm
      rw [show pushGroup ((k', g) :: rest) k a = (k', g) :: pushGroup rest k a by
        simp [pushGroup, h]]
      by_cases hm : k ∈ rest.map Prod.fst
      · simp only [List.map_cons, ih, if_pos hm, List.mem_cons]
        rw [if_pos (Or.inr hm)]
      · simp only [List.map_cons, ih, if_neg hm, List.mem_cons]
        simp [h', hm, List.cons_append]

theorem mem_map_fst_foldl_pushGroup {α κ : Type} [DecidableEq κ] (key : α → κ) (l : List α)
    (acc : List (κ × List α)) (j : κ) :
    j ∈ (l.foldl (fun acc a => pushGroup acc (key a) a) acc).map Prod.fst ↔
      j ∈ acc.map Prod.fst ∨ j ∈ l.map key := by
  induction l generalizing acc with
  | nil => simp
  | cons a l ih =>
    simp only [List.foldl_cons, List.map_cons, List.mem_cons]
    rw [ih, pushGroup_map_fst]
    by_cases h : key a ∈ acc.map Prod.fst
    · rw [if_pos h]
      constructor
      · rintro (h1 | h2)
        · exact Or.inl h1
        · exact Or.inr (Or.inr h2)
      · rintro (h1 | rfl | h3)
        · exact Or.inl h1
        · exact Or.inl h
        · exact Or.inr h3
    · rw [if_neg h]
      simp only [List.mem_append, List.mem_singleton]
      constructor
      · rintro ((h1 | h2) | h3)
        · exact Or.inl h1
        · exact Or.inr (Or.inl h2)
        · exact Or.inr (Or.inr h3)
      · rintro (h1 | h2 | h3)
        · exact Or.inl (Or.inl h1)
        · exact Or.inl (Or.inr h2)
        · exact Or.inr h3

theorem nodup_map_fst_foldl_pushGroup {α κ : Type} [DecidableEq κ] (key : α → κ) (l : List α)
    (acc : List (κ × List α)) (h : (acc.map Prod.fst).Nodup) :
    ((l.foldl (fun acc a => pushGroup acc (key a) a) acc).map Prod.fst).Nodup := by
  induction l generalizing acc with
  | nil => simpa
  | cons a l ih =>
    simp only [List.foldl_cons]
    apply ih
    rw [pushGroup_map_fst]
    by_cases hm : key a ∈ acc.map Prod.fst
    · simpa [hm]
    · simp [hm, List.nodup_append, h]

theorem mem_entry_eq_groupIn {α κ : Type} [DecidableEq κ] (acc : List (κ × List α))
    (hnd : (acc.map Prod.fst).Nodup) (p : κ × List α) (hp : p ∈ acc) :
    p.2 = groupIn acc p.1 := by
  induction acc with
  | nil => cases hp
  | cons q rest ih =>
    obtain ⟨k', g⟩ := q
    simp only [List.map_cons, List.nodup_cons] at hnd
    rcases List.mem_cons.mp hp with heq | hmem
    · subst heq
      simp [groupIn]
    · have hne : ¬ k' = p.1 := by
        intro hcontra
        apply hnd.1
        rw [hcontra]
        exact List.mem_map_of_mem Prod.fst hmem
      simp only [groupIn, if_neg hne]
      exact ih hnd.2 hmem

/- Corollaries for groupByKey. -/

theorem groupByKey_keys_nodup {α κ : Type} [DecidableEq κ] (key : α → κ) (l : List α) :
    ((groupByKey key l).map Prod.fst).Nodup :=
  nodup_map_fst_foldl_pushGroup key l [] (by simp)

theorem mem_groupByKey_keys {α κ : Type} [DecidableEq κ] (key : α → κ) (l : List α) (j : κ) :
    j ∈ (groupByKey key l).map Prod.fst ↔ j ∈ l.map key := by
  have h := mem_map_fst_foldl_pushGroup key l [] j
  simpa [groupByKey] using h

theorem groupByKey_entry {α κ : Type} [DecidableEq κ] (key : α → κ) (l : List α)
    (p : κ × List α) (hp : p ∈ groupByKey key l) :
    p.2 = l.filter (fun a => decide (key a = p.1)) := by
  have h1 : p.2 = groupIn (groupByKey key l) p.1 :=
    mem_entry_eq_groupIn _ (groupByKey_keys_nodup key l) p hp
  rw [h1]
  have h2 := groupIn_foldl_pushGroup key l [] p.1
  simpa [groupByKey, groupIn] using h2

theorem groupByKey_length {α κ : Type} [DecidableEq κ] (key : α → κ) (l : List α) :
    (groupByKey key l).length = (l.map key).dedup.length := by
  have hn1 : ((groupByKey key l).map Prod.fst).Nodup := groupByKey_keys_nodup key l
  have hn2 : (l.map key).dedup.Nodup := (l.map key).nodup_dedup
  have hperm : ((groupByKey key l).map Prod.fst).Perm (l.map key).dedup := by
    apply (List.perm_ext_iff_of_nodup hn1 hn2).mpr
    intro a
    rw [List.mem_dedup]
    exact mem_groupByKey_keys key l a
  calc (groupByKey key l).length
      = ((groupByKey key l).map Prod.fst).length := by simp
    _ = (l.map key).dedup.length := hperm.length_eq

/- Helper lemmas about the normalizers. -/

theorem clamp3_mem (r : ℚ) : 1 ≤ max 1 (min 3 r) ∧ max 1 (min 3 r) ≤ 3 :=
  ⟨le_max_left 1 (min 3 r), max_le (by norm_num) (min_le_left 3 r)⟩

theorem clamp5_mem (r : ℚ) : 1 ≤ max 1 (min 5 r) ∧ max 1 (min 5 r) ≤ 5 :=
  ⟨le_max_left 1 (min 5 r), max_le (by norm_num) (min_le_left 5 r)⟩

theorem normalizeWebsiteRating_mem (r : ℚ) :
    1 ≤ normalizeWebsiteRating r ∧ normalizeWebsiteRating r ≤ 10 := by
  obtain ⟨h1, h2⟩ := clamp3_mem r
  unfold normalizeWebsiteRating
  constructor <;> linarith

theorem normalizeCommunicationRating_mem (r : ℚ) :
    1 ≤ normalizeCommunicationRating r ∧ normalizeCommunicationRating r ≤ 10 := by
  obtain ⟨h1, h2⟩ := clamp3_mem r
  unfold normalizeCommunicationRating
  constructor <;> linarith

theorem normalizeOtherRatings_mem (r : ℚ) :
    1 ≤ normalizeOtherRatings r ∧ normalizeOtherRatings r ≤ 10 := by
  obtain ⟨h1, h2⟩ := clamp5_mem r
  unfold normalizeOtherRatings
  constructor <;> linarith

/- Sample records used for concrete evaluations. -/

/-- A record builder with a given month and NPS score; every optional field
is absent and the body area is a regular zone. -/
def sampleSurvey (y m : Nat) (nps : Int) : SurveyResponse :=
  { created_year := y, created_month := m, nps_score := nps,
    website_design_rating := none, communication_clarity := none,
    reception_friendliness := none, clinic_environment := none,
    doctor_listening := none, explanation_clarity := none,
    consultation_time := none, how_did_you_know_us := none,
    body_area := "rodilla", other_body_area := none }

/- Claim theorems. -/

/-- Claim C7 (confirmed): for every rational input the normalizers clamp the
value into the declared source range instead of erroring, the result lies
within the 1 to 10 target axis, the source minimum maps to the target
minimum and the source maximum maps to the target maximum, for both the
3-point and the 5-point source scales. -/
theorem normalizers_clamp_and_hit_bounds (r : ℚ) :
    (1 ≤ normalizeWebsiteRating r ∧ normalizeWebsiteRating r ≤ 10) ∧
    (1 ≤ normalizeOtherRatings r ∧ normalizeOtherRatings r ≤ 10) ∧
    normalizeWebsiteRating r = normalizeWebsiteRating (max 1 (min 3 r)) ∧
    normalizeOtherRatings r = normalizeOtherRatings (max 1 (min 5 r)) ∧
    normalizeWebsiteRating 1 = 1 ∧ normalizeWebsiteRating 3 = 10 ∧
    normalizeOtherRatings 1 = 1 ∧ normalizeOtherRatings 5 = 10 := by
  refine ⟨normalizeWebsiteRating_mem r, normalizeOtherRatings_mem r, ?_, ?_, ?_, ?_, ?_, ?_⟩
  · obtain ⟨h1, h2⟩ := clamp3_mem r
    unfold normalizeWebsiteRating
    rw [min_eq_right h2, max_eq_right h1]
  · obtain ⟨h1, h2⟩ := clamp5_mem r
    unfold normalizeOtherRatings
    rw [min_eq_right h2, max_eq_right h1]
  · unfold normalizeWebsiteRating
    norm_num
  · unfold normalizeWebsiteRating
    norm_num
  · unfold normalizeOtherRatings
    norm_num
  · unfold normalizeOtherRatings
    norm_num

/-- Claim C6 (confirmed): for every score from 0 to 10 the classification
assigns exactly one band, with detractor exactly on 0 to 6, passive exactly
on 7 to 8 and promoter exactly on 9 to 10, and the collection counts of
calculateNPS are computed with exactly these boundaries. -/
theorem nps_bands_partition (n : ℤ) (h0 : 0 ≤ n) (h10 : n ≤ 10)
    (surveys : List SurveyResponse) :
    (getNPSBadge n = NpsBand.detractor ↔ 0 ≤ n ∧ n ≤ 6) ∧
    (getNPSBadge n = NpsBand.passive ↔ 7 ≤ n ∧ n ≤ 8) ∧
    (getNPSBadge n = NpsBand.promoter ↔ 9 ≤ n ∧ n ≤ 10) ∧
    (calculateNPS surveys).promoters =
      (surveys.filter fun s => decide (9 ≤ s.nps_score)).length ∧
    (calculateNPS surveys).passives =
      (surveys.filter fun s => decide (7 ≤ s.nps_score ∧ s.nps_score ≤ 8)).length ∧
    (calculateNPS surveys).detractors =
      (surveys.filter fun s => decide (s.nps_score ≤ 6)).length := by
  refine ⟨?_, ?_, ?_, ?_, ?_, ?_⟩
  · unfold getNPSBadge
    split_ifs with h1 h2 <;> simp <;> omega
  · unfold getNPSBadge
    split_ifs with h1 h2 <;> simp <;> omega
  · unfold getNPSBadge
    split_ifs with h1 h2 <;> simp <;> omega
  · by_cases hs : surveys.length = 0
    · rw [List.length_eq_zero] at hs
      subst hs
      simp [calculateNPS, promoters]
    · simp [calculateNPS, hs, promoters]
  · by_cases hs : surveys.length = 0
    · rw [List.length_eq_zero] at hs
      subst hs
      simp [calculateNPS, passives]
    · simp [calculateNPS, hs, passives]
  · by_cases hs : surveys.length = 0
    · rw [List.length_eq_zero] at hs
      subst hs
      simp [calculateNPS, detractors]
    · simp [calculateNPS, hs, detractors]

/-- Witness for C6: the theorem applied at score 7 and the empty collection. -/
theorem nps_bands_partition_witness :
    (getNPSBadge 7 = NpsBand.detractor ↔ 0 ≤ (7 : ℤ) ∧ (7 : ℤ) ≤ 6) ∧
    (getNPSBadge 7 = NpsBand.passive ↔ 7 ≤ (7 : ℤ) ∧ (7 : ℤ) ≤ 8) ∧
    (getNPSBadge 7 = NpsBand.promoter ↔ 9 ≤ (7 : ℤ) ∧ (7 : ℤ) ≤ 10) ∧
    (calculateNPS []).promoters =
      (([] : List SurveyResponse).filter fun s => decide (9 ≤ s.nps_score)).length ∧
    (calculateNPS []).passives =
      (([] : List SurveyResponse).filter fun s => decide (7 ≤ s.nps_score ∧ s.nps_score ≤ 8)).length ∧
    (calculateNPS []).detractors =
      (([] : List SurveyResponse).filter fun s => decide (s.nps_score ≤ 6)).length :=
  nps_bands_partition 7 (by norm_num) (by norm_num) []

/-- Claim C8 (code_bug): on the empty collection the field averages return
the empty object, NPS returns 0, the body-zone tally, the referral breakdown
and the monthly trend return empty lists, and the CommentsSection composite
returns the constant 1; but the part_002 composite divides 0 by 0 and yields
NaN, modelled as none, contradicting the required guarded division. -/
theorem empty_collection_results :
    calculateAverages ([] : List SurveyResponse) = none ∧
    calculateNPS ([] : List SurveyResponse) = ⟨0, 0, 0, 0⟩ ∧
    bodyZoneData ([] : List SurveyResponse) = [] ∧
    referralSourceData ([] : List SurveyResponse) = [] ∧
    npsTimeData ([] : List SurveyResponse) = [] ∧
    averageSatisfaction ([] : List SurveyResponse) = 1 ∧
    averageSatisfactionV2 ([] : List SurveyResponse) = none := by
  refine ⟨?_, ?_, ?_, ?_, ?_, ?_, ?_⟩
  · simp [calculateAverages]
  · simp [calculateNPS]
  · simp [bodyZoneData, zoneCounts, List.mergeSort]
  · simp [referralSourceData]
  · simp [npsTimeData]
  · simp only [averageSatisfaction, calculateAverages, List.length_nil]
    norm_num [jsOr, normalizeWebsiteRating, normalizeCommunicationRating, normalizeOtherRatings]
  · simp [averageSatisfactionV2, calculateAverages, objectValues, jsDiv]

/- Claim C1: the rounding rule of computeNPS. -/

/-- Eight responses with no promoter and exactly one detractor: the exact NPS
percentage is -12.5, a negative half. -/
def npsHalfExample : List SurveyResponse :=
  [sampleSurvey 2025 1 7, sampleSurvey 2025 1 7, sampleSurvey 2025 1 7, sampleSurvey 2025 1 7,
   sampleSurvey 2025 1 7, sampleSurvey 2025 1 7, sampleSurvey 2025 1 7, sampleSurvey 2025 1 3]

/-- Claim C1, counterexample: with 0 promoters, 1 detractor and 8 responses
the exact percentage is -12.5; rounding half away from zero as the claim
states would give -13, but the code (JS Math.round) returns -12. -/
theorem calculateNPS_half_case_not_away_from_zero :
    promoters npsHalfExample = 0 ∧
    detractors npsHalfExample = 1 ∧
    npsHalfExample.length = 8 ∧
    roundHalfAwayFromZero
        (((promoters npsHalfExample : ℤ) - (detractors npsHalfExample : ℤ) : ℚ) /
          (npsHalfExample.length : ℚ) * 100) = -13 ∧
    (calculateNPS npsHalfExample).nps = -12 := by
  have hp : promoters npsHalfExample = 0 := by decide
  have hd : detractors npsHalfExample = 1 := by decide
  have hl : npsHalfExample.length = 8 := by decide
  refine ⟨hp, hd, hl, ?_, ?_⟩
  · rw [hp, hd, hl]
    norm_num [roundHalfAwayFromZero]
  · have h8 : npsHalfExample.length ≠ 0 := by rw [hl]; norm_num
    simp only [calculateNPS, if_neg h8]
    rw [hp, hd, hl]
    norm_num [jsRound]

/-- Claim C1 (corrected): for every non-empty collection the NPS equals the
exact percentage rounded to the unique integer n with x - 1/2 < n ≤ x + 1/2,
that is, rounded to the nearest integer with halves toward positive
infinity (JS Math.round), not half away from zero. -/
theorem calculateNPS_rounds_half_up (surveys : List SurveyResponse) (h : surveys ≠ []) :
    ((calculateNPS surveys).nps : ℚ) ≤
      ((promoters surveys : ℤ) - (detractors surveys : ℤ) : ℚ) /
        (surveys.length : ℚ) * 100 + 1/2 ∧
    ((promoters surveys : ℤ) - (detractors surveys : ℤ) : ℚ) /
        (surveys.length : ℚ) * 100 - 1/2 <
      ((calculateNPS surveys).nps : ℚ) := by
  have hl : surveys.length ≠ 0 := by
    intro hc
    exact h (List.length_eq_zero.mp hc)
  simp only [calculateNPS, if_neg hl]
  set x : ℚ :=
    ((promoters surveys : ℤ) - (detractors surveys : ℤ) : ℚ) /
      (surveys.length : ℚ) * 100 with hx
  unfold jsRound
  constructor
  · exact_mod_cast Int.floor_le (x + 1/2)
  · have hlt := Int.lt_floor_add_one (x + 1/2)
    push_cast at hlt ⊢
    linarith

/-- Witness for C1: the theorem applied at the eight-response half case. -/
theorem calculateNPS_rounds_half_up_witness :
    ((calculateNPS npsHalfExample).nps : ℚ) ≤
      ((promoters npsHalfExample : ℤ) - (detractors npsHalfExample : ℤ) : ℚ) /
        (npsHalfExample.length : ℚ) * 100 + 1/2 ∧
    ((promoters npsHalfExample : ℤ) - (detractors npsHalfExample : ℤ) : ℚ) /
        (npsHalfExample.length : ℚ) * 100 - 1/2 <
      ((calculateNPS npsHalfExample).nps : ℚ) :=
  calculateNPS_rounds_half_up npsHalfExample (by simp [npsHalfExample])

/- Claim C5: treatment of missing rating values in the per-field averages. -/

theorem foldl_jsOr_sum (f : SurveyResponse → Option ℚ) (l : List SurveyResponse) (init : ℚ) :
    l.foldl (fun sum s => sum + jsOr (f s) 0) init = init + ((l.map f).reduceOption).sum := by
  induction l generalizing init with
  | nil => simp
  | cons a l ih =>
    simp only [List.foldl_cons, List.map_cons]
    rw [ih]
    cases h : f a with
    | none => simp [h, jsOr, List.reduceOption_cons_of_none]
    | some v =>
      by_cases hv : v = 0
      · subst hv
        simp [jsOr, List.reduceOption_cons_of_some]
      · simp only [jsOr, if_neg hv, List.reduceOption_cons_of_some, List.sum_cons]
        ring

/-- Two records, one with the website rating present with value 3 and one
with it absent. -/
def missingFieldExample : List SurveyResponse :=
  [{ sampleSurvey 2025 1 9 with website_design_rating := some 3 }, sampleSurvey 2025 1 9]

/-- Claim C5, counterexample: with values some 3 and absent, the code
computes the average 3/2, coercing the missing value to 0 while keeping the
record in the denominator; the mean of the present values only, as the claim
states, is 3. -/
theorem calculateAverages_keeps_missing_in_denominator :
    (calculateAverages missingFieldExample).map Averages.website_design_rating = some (3/2) ∧
    ((missingFieldExample.map SurveyResponse.website_design_rating).reduceOption.sum /
      ((missingFieldExample.map SurveyResponse.website_design_rating).reduceOption.length : ℚ)) = 3 ∧
    (3/2 : ℚ) ≠ 3 := by
  refine ⟨?_, ?_, by norm_num⟩
  · have hl : missingFieldExample.length ≠ 0 := by simp [missingFieldExample]
    simp only [calculateAverages, if_neg hl, Option.map_some]
    simp [avgField, missingFieldExample, sampleSurvey, jsOr]
  · simp [missingFieldExample, sampleSurvey, List.reduceOption_cons_of_some,
      List.reduceOption_cons_of_none]

/-- Claim C5 (corrected): a missing rating is excluded from the numerator
(it contributes 0) but the record stays in the denominator: each per-field
average equals the sum of the present values divided by the total record
count, and the result is a defined rational, never NaN or null. -/
theorem avgField_present_sum_over_total_count (f : SurveyResponse → Option ℚ)
    (surveys : List SurveyResponse) (h : surveys ≠ []) :
    avgField f surveys = ((surveys.map f).reduceOption).sum / (surveys.length : ℚ) ∧
    (calculateAverages surveys).isSome = true := by
  constructor
  · unfold avgField
    rw [foldl_jsOr_sum]
    ring_nf
  · have hl : surveys.length ≠ 0 := by
      intro hc
      exact h (List.length_eq_zero.mp hc)
    simp [calculateAverages, hl]

/-- Witness for C5: the theorem applied to the website rating field of the
two-record example. -/
theorem avgField_present_sum_over_total_count_witness :
    avgField SurveyResponse.website_design_rating missingFieldExample =
      ((missingFieldExample.map SurveyResponse.website_design_rating).reduceOption).sum /
        (missingFieldExample.length : ℚ) ∧
    (calculateAverages missingFieldExample).isSome = true :=
  avgField_present_sum_over_total_count SurveyResponse.website_design_rating
    missingFieldExample (by simp [missingFieldExample])

/- Claim C4: normalization in the composite satisfaction scores. -/

/-- A record at the top of every scale: website and communication at 3 on
the 3-point scale, the remaining five ratings at 5 on the 5-point scale. -/
def rawMixExample : SurveyResponse :=
  { created_year := 2025, created_month := 1, nps_score := 9,
    website_design_rating := some 3, communication_clarity := some 3,
    reception_friendliness := some 5, clinic_environment := some 5,
    doctor_listening := some 5, explanation_clarity := some 5,
    consultation_time := some 5, how_did_you_know_us := none,
    body_area := "rodilla", other_body_area := none }

/-- Claim C4, counterexample: the per-record composite used for satisfaction
sorting averages the raw values, mixing the 3-point and 5-point scales: on a
record at the maximum of every scale it returns 31/7, while the mean of the
normalized values required by the claim is 10. -/
theorem calculateAverageSatisfaction_mixes_raw_scales :
    calculateAverageSatisfaction rawMixExample = some (31/7) ∧
    compositeNormalizedOfRecord rawMixExample = some 10 ∧
    (31/7 : ℚ) ≠ 10 := by
  refine ⟨?_, ?_, by norm_num⟩
  · simp [calculateAverageSatisfaction, rawMixExample, jsDiv,
      List.reduceOption_cons_of_some]
    norm_num
  · simp [compositeNormalizedOfRecord, rawMixExample, jsDiv,
      List.reduceOption_cons_of_some, normalizeWebsiteRating,
      normalizeCommunicationRating, normalizeOtherRatings]
    norm_num

/-- Claim C4 (corrected): the collection-level composite averageSatisfaction
does equal the mean of the normalized per-field averages and therefore lies
on the 1 to 10 target axis; but the per-record composite
calculateAverageSatisfaction averages the raw ratings of a fully present
record without any normalization. -/
theorem composite_normalization_split (surveys : List SurveyResponse)
    (w c rf ce dl ec ct : ℚ) (y m : Nat) (nps : Int) (how : Option String)
    (ba : String) (oba : Option String) :
    averageSatisfaction surveys = compositeOfNormalizedAverages surveys ∧
    1 ≤ averageSatisfaction surveys ∧ averageSatisfaction surveys ≤ 10 ∧
    calculateAverageSatisfaction
        { created_year := y, created_month := m, nps_score := nps,
          website_design_rating := some w, communication_clarity := some c,
          reception_friendliness := some rf, clinic_environment := some ce,
          doctor_listening := some dl, explanation_clarity := some ec,
          consultation_time := some ct, how_did_you_know_us := how,
          body_area := ba, other_body_area := oba } =
      some ((w + c + rf + ce + dl + ec + ct) / 7) := by
  refine ⟨rfl, ?_, ?_, ?_⟩
  · unfold averageSatisfaction
    obtain ⟨hw, _⟩ := normalizeWebsiteRating_mem
      (jsOr ((calculateAverages surveys).map Averages.website_design_rating) 1)
    obtain ⟨hc, _⟩ := normalizeCommunicationRating_mem
      (jsOr ((calculateAverages surveys).map Averages.communication_clarity) 1)
    obtain ⟨h1, _⟩ := normalizeOtherRatings_mem
      (jsOr ((calculateAverages surveys).map Averages.reception_friendliness) 1)
    obtain ⟨h2, _⟩ := normalizeOtherRatings_mem
      (jsOr ((calculateAverages surveys).map Averages.clinic_environment) 1)
    obtain ⟨h3, _⟩ := normalizeOtherRatings_mem
      (jsOr ((calculateAverages surveys).map Averages.doctor_listening) 1)
    obtain ⟨h4, _⟩ := normalizeOtherRatings_mem
      (jsOr ((calculateAverages surveys).map Averages.explanation_clarity) 1)
    obtain ⟨h5, _⟩ := normalizeOtherRatings_mem
      (jsOr ((calculateAverages surveys).map Averages.consultation_time) 1)
    linarith
  · unfold averageSatisfaction
    obtain ⟨_, hw⟩ := normalizeWebsiteRating_mem
      (jsOr ((calculateAverages surveys).map Averages.website_design_rating) 1)
    obtain ⟨_, hc⟩ := normalizeCommunicationRating_mem
      (jsOr ((calculateAverages surveys).map Averages.communication_clarity) 1)
    obtain ⟨_, h1⟩ := normalizeOtherRatings_mem
      (jsOr ((calculateAverages surveys).map Averages.reception_friendliness) 1)
    obtain ⟨_, h2⟩ := normalizeOtherRatings_mem
      (jsOr ((calculateAverages surveys).map Averages.clinic_environment) 1)
    obtain ⟨_, h3⟩ := normalizeOtherRatings_mem
      (jsOr ((calculateAverages surveys).map Averages.doctor_listening) 1)
    obtain ⟨_, h4⟩ := normalizeOtherRatings_mem
      (jsOr ((calculateAverages surveys).map Averages.explanation_clarity) 1)
    obtain ⟨_, h5⟩ := normalizeOtherRatings_mem
      (jsOr ((calculateAverages surveys).map Averages.consultation_time) 1)
    linarith
  · simp only [calculateAverageSatisfaction, List.reduceOption_cons_of_some,
      List.reduceOption_nil, jsDiv]
    norm_num

/- Claim C3: the referral-source breakdown. -/

/-- The grouping key a record contributes to the referral breakdown: the
display label of its source when the source is truthy, nothing otherwise. -/
def referralKey (survey : SurveyResponse) : Option String :=
  match survey.how_did_you_know_us with
  | some source => if source ≠ "" then some (getSourceLabel source) else none
  | none => none

theorem referral_fold_eq (l : List SurveyResponse) (acc : List (String × Nat)) :
    l.foldl (fun acc survey =>
      match survey.how_did_you_know_us with
      | some source => if source ≠ "" then bump acc (getSourceLabel source) else acc
      | none => acc) acc =
    (l.filterMap referralKey).foldl (fun acc k => bump acc (id k)) acc := by
  induction l generalizing acc with
  | nil => rfl
  | cons a l ih =>
    simp only [List.foldl_cons, List.filterMap_cons]
    cases h : a.how_did_you_know_us with
    | none =>
      simp only [h, referralKey]
      exact ih acc
    | some src =>
      by_cases hs : src ≠ ""
      · simp only [h, referralKey, if_pos hs, List.foldl_cons, id_eq]
        exact ih (bump acc (getSourceLabel src))
      · simp only [h, referralKey, if_neg hs]
        exact ih acc

theorem length_filter_filterMap {α κ : Type} [DecidableEq κ] (g : α → Option κ)
    (l : List α) (j : κ) :
    ((l.filterMap g).filter (fun k => decide (k = j))).length =
      (l.filter (fun a => decide (g a = some j))).length := by
  induction l with
  | nil => rfl
  | cons a l ih =>
    simp only [List.filterMap_cons, List.filter_cons]
    cases h : g a with
    | none => simpa [h] using ih
    | some b =>
      by_cases hb : b = j
      · subst hb
        simp [h, ih]
      · simp [h, hb, ih]

theorem referralKey_pred (s : SurveyResponse) (j : String) :
    decide (referralKey s = some j) =
      (strTruthy s.how_did_you_know_us &&
        decide (getSourceLabel (s.how_did_you_know_us.getD ("")) = j)) := by
  cases h : s.how_did_you_know_us with
  | none => simp [referralKey, strTruthy, h]
  | some src =>
    by_cases hs : src = ""
    · subst hs
      simp [referralKey, strTruthy, h]
    · simp [referralKey, strTruthy, h, hs]

/-- Claim C3 (corrected): the referral breakdown groups records by the label
of their truthy source, ignoring absent ones, but each percentage is taken
over the whole collection size, not over the count of records with a
non-absent source. -/
theorem referralSourceData_entries (surveys : List SurveyResponse) :
    ∀ e ∈ referralSourceData surveys,
      e.count = (surveys.filter fun s =>
          strTruthy s.how_did_you_know_us &&
            decide (getSourceLabel (s.how_did_you_know_us.getD ("")) = e.source)).length ∧
      e.percentage = jsRound ((e.count : ℚ) / (surveys.length : ℚ) * 100) := by
  intro e he
  by_cases hl : surveys.length = 0
  · simp [referralSourceData, hl] at he
  · simp only [referralSourceData, if_neg hl] at he
    obtain ⟨p, hp, hpe⟩ := List.mem_map.mp he
    subst hpe
    rw [referral_fold_eq] at hp
    constructor
    · have hnd := nodup_map_fst_foldl_bump (fun k => id k)
        (surveys.filterMap referralKey) [] (by simp)
      have hcount := mem_entry_eq_countIn _ hnd p hp
      have hc2 := countIn_foldl_bump (fun k => id k) (surveys.filterMap referralKey) [] p.1
      rw [hc2] at hcount
      simp only [countIn, Nat.zero_add, id_eq] at hcount
      show p.2 = (surveys.filter fun s =>
        strTruthy s.how_did_you_know_us &&
          decide (getSourceLabel (s.how_did_you_know_us.getD ("")) = p.1)).length
      rw [hcount, length_filter_filterMap]
      congr 1
      apply List.filter_congr
      intro s _
      exact referralKey_pred s p.1
    · rfl

/-- Two records: one knows the clinic from social media, the other has no
referral source. -/
def referralExample : List SurveyResponse :=
  [{ sampleSurvey 2025 1 9 with how_did_you_know_us := some ("redes_sociales") },
   sampleSurvey 2025 1 9]

/-- Claim C3, counterexample: with one social-media record and one record
without a source, the code reports 50 percent (1 of 2 total records), while
the claim requires the percentage of the non-absent total, 100 percent
(1 of 1). -/
theorem referral_percentage_not_over_nonabsent :
    referralSourceData referralExample =
      [{ source := "Redes sociales", count := 1, percentage := 50 }] ∧
    jsRound ((1 : ℚ) / (1 : ℚ) * 100) = 100 ∧
    (50 : ℤ) ≠ 100 := by
  refine ⟨?_, ?_, by norm_num⟩
  · have hl : referralExample.length ≠ 0 := by simp [referralExample]
    have hfold : (referralExample.foldl (fun acc survey =>
        match survey.how_did_you_know_us with
        | some source => if source ≠ "" then bump acc (getSourceLabel source) else acc
        | none => acc) []) = [("Redes sociales", 1)] := by
      simp [referralExample, sampleSurvey, bump, getSourceLabel]
    simp only [referralSourceData, if_neg hl, hfold, List.map_cons, List.map_nil]
    have hlen : referralExample.length = 2 := by simp [referralExample]
    rw [hlen]
    norm_num [jsRound, SourceEntry.mk.injEq]
  · norm_num [jsRound]

/-- Witness for C3: the theorem applied to the social-media entry of the
two-record example. -/
theorem referralSourceData_entries_witness :
    (1 : ℕ) = (referralExample.filter fun s =>
        strTruthy s.how_did_you_know_us &&
          decide (getSourceLabel (s.how_did_you_know_us.getD ("")) = "Redes sociales")).length ∧
    (50 : ℤ) = jsRound (((1 : ℕ) : ℚ) / (referralExample.length : ℚ) * 100) :=
  referralSourceData_entries referralExample
    { source := "Redes sociales", count := 1, percentage := 50 }
    (by
      have hl : referralExample.length ≠ 0 := by simp [referralExample]
      have hfold : (referralExample.foldl (fun acc survey =>
          match survey.how_did_you_know_us with
          | some source => if source ≠ "" then bump acc (getSourceLabel source) else acc
          | none => acc) []) = [("Redes sociales", 1)] := by
        simp [referralExample, sampleSurvey, bump, getSourceLabel]
      simp only [referralSourceData, if_neg hl, hfold, List.map_cons, List.map_nil]
      have hlen : referralExample.length = 2 := by simp [referralExample]
      rw [hlen]
      norm_num [jsRound, SourceEntry.mk.injEq])

/- Claims C9 and C10: the body-zone tally. -/

theorem zoneCounts_sum (surveys : List SurveyResponse) :
    ((zoneCounts surveys).map Prod.snd).sum = surveys.length := by
  have h := sum_foldl_bump effectiveZone surveys []
  simpa [zoneCounts] using h

theorem zoneCounts_entry (surveys : List SurveyResponse) (p : String × Nat)
    (hp : p ∈ zoneCounts surveys) :
    p.2 = (surveys.filter fun s => decide (effectiveZone s = p.1)).length := by
  have hnd := nodup_map_fst_foldl_bump effectiveZone surveys [] (by simp)
  have hcount := mem_entry_eq_countIn _ hnd p hp
  have hc2 := countIn_foldl_bump effectiveZone surveys [] p.1
  rw [hc2] at hcount
  simpa [countIn] using hcount

theorem bodyZoneData_sorted (surveys : List SurveyResponse) :
    (bodyZoneData surveys).Pairwise (fun a b => b.count ≤ a.count) := by
  unfold bodyZoneData
  have hs := @List.sorted_mergeSort ZoneEntry
    (fun a b => decide (b.count ≤ a.count))
    (fun a b c hab hbc => by
      simp only [decide_eq_true_eq] at hab hbc ⊢
      omega)
    (fun a b => by
      simp only [Bool.or_eq_true, decide_eq_true_eq]
      omega)
    ((zoneCounts surveys).map fun p =>
      ({ zone := p.1, count := p.2, label := getBodyAreaLabel p.1,
         percentage := jsRound ((p.2 : ℚ) /
           (((zoneCounts surveys).map Prod.snd).sum : ℚ) * 100) } : ZoneEntry))
  exact hs.imp (fun h => by simpa using h)

/-- A record whose zone is the sentinel with free text Tobillo. -/
def otherTobilloExample : SurveyResponse :=
  { sampleSurvey 2025 1 9 with body_area := "otra", other_body_area := some ("Tobillo") }

/-- Claim C9 (confirmed): the body-zone tally counts each record under its
effective zone (substituting the free text when the zone is the sentinel, as
in the Tobillo example), each percentage is the rounded share of the total,
the stored label is the display label of the zone, and the list is sorted by
count descending. -/
theorem bodyZoneData_spec (surveys : List SurveyResponse) :
    (bodyZoneData surveys).Pairwise (fun a b => b.count ≤ a.count) ∧
    (∀ e ∈ bodyZoneData surveys,
      e.count = (surveys.filter fun s => decide (effectiveZone s = e.zone)).length ∧
      e.label = getBodyAreaLabel e.zone ∧
      e.percentage = jsRound ((e.count : ℚ) / (surveys.length : ℚ) * 100)) ∧
    effectiveZone otherTobilloExample = "Tobillo" := by
  refine ⟨bodyZoneData_sorted surveys, ?_, by decide⟩
  intro e he
  have hperm := List.mergeSort_perm ((zoneCounts surveys).map fun p =>
    ({ zone := p.1, count := p.2, label := getBodyAreaLabel p.1,
       percentage := jsRound ((p.2 : ℚ) /
         (((zoneCounts surveys).map Prod.snd).sum : ℚ) * 100) } : ZoneEntry))
    (fun a b => decide (b.count ≤ a.count))
  have he2 : e ∈ (zoneCounts surveys).map fun p =>
      ({ zone := p.1, count := p.2, label := getBodyAreaLabel p.1,
         percentage := jsRound ((p.2 : ℚ) /
           (((zoneCounts surveys).map Prod.snd).sum : ℚ) * 100) } : ZoneEntry) :=
    hperm.mem_iff.mp he
  obtain ⟨p, hp, hpe⟩ := List.mem_map.mp he2
  subst hpe
  refine ⟨zoneCounts_entry surveys p hp, rfl, ?_⟩
  show jsRound ((p.2 : ℚ) / (((zoneCounts surveys).map Prod.snd).sum : ℚ) * 100) =
    jsRound ((p.2 : ℚ) / (surveys.length : ℚ) * 100)
  rw [zoneCounts_sum]

/-- Witness for C9: the theorem applied to the single-record collection with
the sentinel zone and free text Tobillo. -/
theorem bodyZoneData_spec_witness :
    ({ zone := "Tobillo", count := 1, label := "Tobillo", percentage := 100 } : ZoneEntry).count =
      ([otherTobilloExample].filter fun s => decide (effectiveZone s =
        ({ zone := "Tobillo", count := 1, label := "Tobillo", percentage := 100 } : ZoneEntry).zone)).length ∧
    ({ zone := "Tobillo", count := 1, label := "Tobillo", percentage := 100 } : ZoneEntry).label =
      getBodyAreaLabel ({ zone := "Tobillo", count := 1, label := "Tobillo", percentage := 100 } : ZoneEntry).zone ∧
    ({ zone := "Tobillo", count := 1, label := "Tobillo", percentage := 100 } : ZoneEntry).percentage =
      jsRound ((({ zone := "Tobillo", count := 1, label := "Tobillo", percentage := 100 } : ZoneEntry).count : ℚ) /
        (([otherTobilloExample] : List SurveyResponse).length : ℚ) * 100) :=
  (bodyZoneData_spec [otherTobilloExample]).2.1
    { zone := "Tobillo", count := 1, label := "Tobillo", percentage := 100 }
    (by
      have hz : zoneCounts [otherTobilloExample] = [("Tobillo", 1)] := by
        simp [zoneCounts, bump, effectiveZone, otherTobilloExample, sampleSurvey]
      have hlbl : getBodyAreaLabel ("Tobillo") = "Tobillo" := by decide
      unfold bodyZoneData
      rw [hz]
      simp only [List.map_cons, List.map_nil, hlbl]
      norm_num [jsRound, List.mergeSort])

/-- A record whose zone is the sentinel and whose free text is absent. -/
def otraNoTextExample : SurveyResponse :=
  { sampleSurvey 2025 1 9 with body_area := "otra" }

/-- Claim C10 (confirmed): the body-zone tally is total: the zone counts sum
to the number of records, a sentinel record with absent or empty free text
is counted under the sentinel key itself, and each percentage is taken over
that same summed total. -/
theorem bodyZoneData_total (surveys : List SurveyResponse) :
    ((bodyZoneData surveys).map ZoneEntry.count).sum = surveys.length ∧
    (∀ s : SurveyResponse, s.body_area = "otra" →
      (s.other_body_area = none ∨ s.other_body_area = some ("")) →
      effectiveZone s = "otra") ∧
    (∀ e ∈ bodyZoneData surveys,
      e.percentage = jsRound ((e.count : ℚ) /
        (((bodyZoneData surveys).map ZoneEntry.count).sum : ℚ) * 100)) := by
  have hsum : ((bodyZoneData surveys).map ZoneEntry.count).sum =
      ((zoneCounts surveys).map Prod.snd).sum := by
    unfold bodyZoneData
    rw [((List.mergeSort_perm _ _).map ZoneEntry.count).sum_eq, List.map_map]
    rfl
  refine ⟨?_, ?_, ?_⟩
  · rw [hsum, zoneCounts_sum]
  · intro s h1 h2
    rcases h2 with h2 | h2 <;> simp [effectiveZone, h2, h1]
  · intro e he
    rw [hsum]
    have hperm := List.mergeSort_perm ((zoneCounts surveys).map fun p =>
      ({ zone := p.1, count := p.2, label := getBodyAreaLabel p.1,
         percentage := jsRound ((p.2 : ℚ) /
           (((zoneCounts surveys).map Prod.snd).sum : ℚ) * 100) } : ZoneEntry))
      (fun a b => decide (b.count ≤ a.count))
    have he2 : e ∈ (zoneCounts surveys).map fun p =>
        ({ zone := p.1, count := p.2, label := getBodyAreaLabel p.1,
           percentage := jsRound ((p.2 : ℚ) /
             (((zoneCounts surveys).map Prod.snd).sum : ℚ) * 100) } : ZoneEntry) :=
      hperm.mem_iff.mp he
    obtain ⟨p, hp, hpe⟩ := List.mem_map.mp he2
    subst hpe
    rfl

/-- Witness for C10: the theorem applied to a sentinel record without free
text, on the empty collection for the global conjuncts. -/
theorem bodyZoneData_total_witness :
    effectiveZone otraNoTextExample = "otra" :=
  (bodyZoneData_total []).2.1 otraNoTextExample rfl (Or.inl rfl)

/- Claim C2: the monthly NPS trend. -/

/-- Claim C2 (corrected): the monthly trend has exactly one point per
observed month, each point carries that month label, the month record count
and the month NPS, but the points are sorted in ascending order of the
localized Spanish month-label string, not in chronological month order. -/
theorem npsTimeData_points (surveys : List SurveyResponse) :
    (npsTimeData surveys).length = (surveys.map monthKeyPair).dedup.length ∧
    (npsTimeData surveys).Pairwise (fun a b => labelLe a.mes b.mes = true) ∧
    ∀ k ∈ surveys.map monthKeyPair,
      ∃ p ∈ npsTimeData surveys, p.mes = monthLabelEs k ∧
        p.respuestas = (surveys.filter fun s => decide (monthKeyPair s = k)).length ∧
        p.nps = (calculateNPS (surveys.filter fun s => decide (monthKeyPair s = k))).nps := by
  by_cases hl : surveys.length = 0
  · rw [List.length_eq_zero] at hl
    subst hl
    refine ⟨by simp [npsTimeData], by simp [npsTimeData], by simp⟩
  · refine ⟨?_, ?_, ?_⟩
    · simp only [npsTimeData, if_neg hl]
      rw [(List.mergeSort_perm _ _).length_eq, List.length_map, groupByKey_length]
    · simp only [npsTimeData, if_neg hl]
      exact @List.sorted_mergeSort TrendPoint (fun a b => labelLe a.mes b.mes)
        (fun a b c hab hbc => lexLe_trans _ _ _ hab hbc)
        (fun a b => by
          rcases lexLe_total a.mes.data b.mes.data with h | h <;> simp [labelLe, h])
        ((groupByKey monthKeyPair surveys).map fun p =>
          { mes := monthLabelEs p.1, nps := (calculateNPS p.2).nps, respuestas := p.2.length })
    · intro k hk
      have hkey : k ∈ (groupByKey monthKeyPair surveys).map Prod.fst :=
        (mem_groupByKey_keys monthKeyPair surveys k).mpr hk
      obtain ⟨q, hq, hqk⟩ := List.mem_map.mp hkey
      have hgrp := groupByKey_entry monthKeyPair surveys q hq
      refine ⟨{ mes := monthLabelEs q.1, nps := (calculateNPS q.2).nps,
                respuestas := q.2.length }, ?_, ?_, ?_, ?_⟩
      · simp only [npsTimeData, if_neg hl]
        apply (List.mergeSort_perm _ _).mem_iff.mpr
        exact List.mem_map_of_mem _ hq
      · rw [hqk]
      · show q.2.length = _
        rw [hgrp, hqk]
      · show (calculateNPS q.2).nps = _
        rw [hgrp, hqk]

/-- Two responses in different months: August 2024 with score 10 and April
2025 with score 0. -/
def trendExample : List SurveyResponse :=
  [sampleSurvey 2024 8 10, sampleSurvey 2025 4 0]

/-- Claim C2, counterexample: sorting by the localized label places the
point of April 2025 (abr 2025) before the point of August 2024 (ago 2024)
although its month is chronologically later, so the output is not in
ascending chronological month order. -/
theorem npsTimeData_not_chronological :
    trendExample.map monthKeyPair = [(2024, 8), (2025, 4)] ∧
    npsTimeData trendExample =
      [{ mes := "abr 2025", nps := -100, respuestas := 1 },
       { mes := "ago 2024", nps := 100, respuestas := 1 }] ∧
    monthLabelEs (2025, 4) = "abr 2025" ∧
    monthLabelEs (2024, 8) = "ago 2024" ∧
    2024 * 12 + 8 < 2025 * 12 + 4 := by
  refine ⟨by decide, ?_, by decide, by decide, by norm_num⟩
  have hg : groupByKey monthKeyPair trendExample =
      [((2024, 8), [sampleSurvey 2024 8 10]), ((2025, 4), [sampleSurvey 2025 4 0])] := by
    decide
  have h1 : calculateNPS [sampleSurvey 2024 8 10] = ⟨100, 1, 0, 0⟩ := by
    have hne : ([sampleSurvey 2024 8 10] : List SurveyResponse).length ≠ 0 := by simp
    have hp : promoters [sampleSurvey 2024 8 10] = 1 := by decide
    have hpa : passives [sampleSurvey 2024 8 10] = 0 := by decide
    have hd : detractors [sampleSurvey 2024 8 10] = 0 := by decide
    simp only [calculateNPS, if_neg hne, hp, hpa, hd, NPSResult.mk.injEq]
    norm_num [jsRound]
  have h2 : calculateNPS [sampleSurvey 2025 4 0] = ⟨-100, 0, 0, 1⟩ := by
    have hne : ([sampleSurvey 2025 4 0] : List SurveyResponse).length ≠ 0 := by simp
    have hp : promoters [sampleSurvey 2025 4 0] = 0 := by decide
    have hpa : passives [sampleSurvey 2025 4 0] = 0 := by decide
    have hd : detractors [sampleSurvey 2025 4 0] = 1 := by decide
    simp only [calculateNPS, if_neg hne, hp, hpa, hd, NPSResult.mk.injEq]
    norm_num [jsRound]
  have hlbl1 : monthLabelEs (2024, 8) = "ago 2024" := by decide
  have hlbl2 : monthLabelEs (2025, 4) = "abr 2025" := by decide
  have hle : labelLe ("ago 2024") ("abr 2025") = false := by decide
  have hne : trendExample.length ≠ 0 := by simp [trendExample]
  simp only [npsTimeData, if_neg hne, hg, List.map_cons, List.map_nil, h1, h2,
    hlbl1, hlbl2, List.length_cons, List.length_nil]
  simp [List.mergeSort, hle]

/-- Witness for C2: the theorem applied at the two-month example and the
August 2024 month key. -/
theorem npsTimeData_points_witness :
    ∃ p ∈ npsTimeData trendExample, p.mes = monthLabelEs (2024, 8) ∧
      p.respuestas = (trendExample.filter fun s => decide (monthKeyPair s = (2024, 8))).length ∧
      p.nps = (calculateNPS (trendExample.filter fun s => decide (monthKeyPair s = (2024, 8)))).nps :=
  (npsTimeData_points trendExample).2.2 (2024, 8) (by decide)

end SurveySpec
